import Mathlib

/-!
Shallow embedding of the simulation core of `src/game.js` (a 2D snake game):
vector helpers, the spatial hash, the agent (`Snake`) model with its per-tick
update, the food-pickup and snake-vs-snake collision passes, and the bot
avoidance scan.  JavaScript numbers are embedded as real numbers; the global
`foods`/`particles` side effects of death are reported as a boolean
"death effects fired" flag where a claim needs them.
-/

namespace Game

open Classical

-- Configuration constants from the `CONFIG` literal at the top of `game.js`.
namespace CONFIG

def mapSize : ℝ := 100000

def baseSpeed : ℝ := 450

def boostSpeed : ℝ := 900

def turnSpeed : ℝ := 8.0

def maxPathPoints : ℕ := 400

end CONFIG

/-- 2D vector, mirroring `class Vector` (rendering-only helpers omitted). -/
structure Vector where
  x : ℝ
  y : ℝ

def Vector.add (v w : Vector) : Vector := ⟨v.x + w.x, v.y + w.y⟩

def Vector.sub (v w : Vector) : Vector := ⟨v.x - w.x, v.y - w.y⟩

def Vector.mult (v : Vector) (n : ℝ) : Vector := ⟨v.x * n, v.y * n⟩

noncomputable def Vector.mag (v : Vector) : ℝ := Real.sqrt (v.x * v.x + v.y * v.y)

/-- `norm() { let m = this.mag(); return m === 0 ? new Vector(0,0) : ... }` -/
noncomputable def Vector.norm (v : Vector) : Vector :=
  if v.mag = 0 then ⟨0, 0⟩ else ⟨v.x / v.mag, v.y / v.mag⟩

noncomputable def Vector.dist (v w : Vector) : ℝ :=
  Real.sqrt ((v.x - w.x) ^ 2 + (v.y - w.y) ^ 2)

def Vector.copy (v : Vector) : Vector := ⟨v.x, v.y⟩

/-- Agent state, mirroring the fields of `class Snake` that the simulation
reads or writes (display-only fields `name`, `color`, `color2`, `pattern`
are omitted; `id` stands in for JavaScript object identity, which the code
also uses `this.id` for). -/
structure Snake where
  id : ℕ
  isBot : Bool
  pos : Vector
  angle : ℝ
  targetAngle : ℝ
  score : ℝ
  width : ℝ
  targetWidth : ℝ
  path : List Vector
  dead : Bool
  multiplier : ℝ
  multiplierTimer : ℝ
  wantBoost : Bool
  changeDirTimer : ℝ
  boostCooldown : ℝ

/-- `calculateWidth`, as a function of the score it reads from `this`. -/
noncomputable def widthOfScore (score : ℝ) : ℝ :=
  min 500 (15 + Real.logb 10 (max 10 score) * 25)

noncomputable def Snake.calculateWidth (s : Snake) : ℝ := widthOfScore s.score

/-- `calculateTargetLength`, as a function of the score it reads from `this`. -/
noncomputable def targetLengthOfScore (score : ℝ) : ℝ := min 8000 (200 + score * 0.1)

noncomputable def Snake.calculateTargetLength (s : Snake) : ℝ := targetLengthOfScore s.score

noncomputable def Snake.getPathSpacing (s : Snake) : ℝ := max (s.width * 0.5) (s.width * 1.0)

/-- Number of points produced by the constructor loop
`for (let i = 0; i < startLen; i += spacing)`: the least `n` with
`n * spacing ≥ startLen`, i.e. `⌈startLen / spacing⌉`.  A non-positive
`spacing` would not terminate in the source; it is unreachable there
(spacing is half of a width that is at least 40) and mapped to `0`. -/
noncomputable def prefillCount (startLen spacing : ℝ) : ℕ :=
  if 0 < spacing then ⌈startLen / spacing⌉₊ else 0

/-- The constructor's backward pre-fill of `this.path`: point `k` is
`pos.add(dir.mult(k * spacing))` with `dir = (cos angle, sin angle) * (-1)`. -/
noncomputable def prefillPath (pos : Vector) (angle startLen spacing : ℝ) : List Vector :=
  (List.range (prefillCount startLen spacing)).map
    (fun (k : ℕ) =>
      pos.add (((Vector.mk (Real.cos angle) (Real.sin angle)).mult (-1)).mult ((k : ℝ) * spacing)))

/-- The `Snake` constructor, with the randomly sampled id, spawn position and
heading passed in as parameters. -/
noncomputable def Snake.spawn (id : ℕ) (pos : Vector) (angle : ℝ) (isBot : Bool)
    (startScore : ℝ) : Snake :=
  { id := id
    isBot := isBot
    pos := pos
    angle := angle
    targetAngle := angle
    score := startScore
    width := widthOfScore startScore
    targetWidth := widthOfScore startScore
    path := prefillPath pos angle (targetLengthOfScore startScore) (widthOfScore startScore / 2)
    dead := false
    multiplier := 1
    multiplierTimer := 0
    wantBoost := false
    changeDirTimer := 0
    boostCooldown := 0 }

/-- The set of head positions the constructor can sample:
`(Math.random() - 0.5) * CONFIG.mapSize * 1.5` per coordinate, `Math.random() ∈ [0, 1)`. -/
def attainableSpawn (p : Vector) : Prop :=
  ∃ r1 r2 : ℝ, 0 ≤ r1 ∧ r1 < 1 ∧ 0 ≤ r2 ∧ r2 < 1 ∧
    p = ⟨(r1 - 0.5) * CONFIG.mapSize * 1.5, (r2 - 0.5) * CONFIG.mapSize * 1.5⟩

/-- Closed form of the two normalization loops
`while (diff <= -PI) diff += 2PI; while (diff > PI) diff -= 2PI`:
the representative of `d` modulo `2π` lying in `(-π, π]`. -/
noncomputable def normAngleDiff (d : ℝ) : ℝ :=
  d - 2 * Real.pi * ⌈(d - Real.pi) / (2 * Real.pi)⌉

/-- Multiplier-decay step of `Snake.update`: the timer after the tick. -/
noncomputable def Snake.multiplierTimerAfter (s : Snake) (dt : ℝ) : ℝ :=
  if 1 < s.multiplier then s.multiplierTimer - dt else s.multiplierTimer

/-- Multiplier-decay step of `Snake.update`: the multiplier after the tick. -/
noncomputable def Snake.multiplierAfter (s : Snake) (dt : ℝ) : ℝ :=
  if 1 < s.multiplier ∧ s.multiplierTimer - dt ≤ 0 then 1 else s.multiplier

/-- Turning step of `Snake.update`. -/
noncomputable def Snake.angleAfter (s : Snake) (dt : ℝ) : ℝ :=
  let diff := normAngleDiff (s.targetAngle - s.angle)
  let turnAmount := CONFIG.turnSpeed * (30 / (s.width + 10)) * dt
  if |diff| < turnAmount then s.targetAngle else s.angle + Real.sign diff * turnAmount

/-- `(!this.isBot && mouseDown) || (this.isBot && this.wantBoost)` -/
def Snake.boosting (s : Snake) (mouseDown : Bool) : Bool :=
  (!s.isBot && mouseDown) || (s.isBot && s.wantBoost)

/-- Speed selection of `Snake.update`: base speed, `* 0.9` for wide bots,
overridden by the boost speed when boosting with score above the floor. -/
noncomputable def Snake.currentSpeed (s : Snake) (mouseDown : Bool) : ℝ :=
  if s.boosting mouseDown ∧ 50 < s.score then CONFIG.boostSpeed
  else if s.isBot ∧ 100 < s.width then CONFIG.baseSpeed * 0.9
  else CONFIG.baseSpeed

/-- Score after the boost-cost deduction `this.score -= dt * 25`. -/
noncomputable def Snake.scoreAfter (s : Snake) (dt : ℝ) (mouseDown : Bool) : ℝ :=
  if s.boosting mouseDown ∧ 50 < s.score then s.score - dt * 25 else s.score

/-- Head position after the per-tick translation
`this.pos = this.pos.add(velocity)`. -/
noncomputable def Snake.movedPos (s : Snake) (dt : ℝ) (mouseDown : Bool) : Vector :=
  s.pos.add ((Vector.mk (Real.cos (s.angleAfter dt)) (Real.sin (s.angleAfter dt))).mult
    (s.currentSpeed mouseDown * dt))

/-- Path-management step of `Snake.update`, first half: push the moved head
position to the front when the path is empty (`!lastPoint`) or the head has
moved farther than the adaptive spacing from `path[0]`, then truncate to the
`maxPathPoints` cap (`this.path.length = CONFIG.maxPathPoints`). -/
noncomputable def Snake.path1After (s : Snake) (dt : ℝ) (mouseDown : Bool) : List Vector :=
  match s.path.head? with
  | none => (s.movedPos dt mouseDown :: s.path).take CONFIG.maxPathPoints
  | some lastPoint =>
    if s.getPathSpacing < (s.movedPos dt mouseDown).dist lastPoint then
      (s.movedPos dt mouseDown :: s.path).take CONFIG.maxPathPoints
    else s.path

/-- Path-management step of `Snake.update`, second half: pop the oldest point
when the approximate length `path.length * spacing` exceeds the
score-derived target length. -/
noncomputable def Snake.pathAfter (s : Snake) (dt : ℝ) (mouseDown : Bool) : List Vector :=
  if targetLengthOfScore (s.scoreAfter dt mouseDown)
      < ((s.path1After dt mouseDown).length : ℝ) * s.getPathSpacing then
    (s.path1After dt mouseDown).dropLast
  else s.path1After dt mouseDown

/-- `Snake.update(dt)`.  Returns the updated snake together with a flag that
is `true` exactly when the out-of-bounds death branch ran (the branch that
calls `spawnParticles` and `dropFood` and then returns early).  The
probabilistic tail-pellet drop while boosting touches only the global food
list, not the snake itself. -/
noncomputable def Snake.update (s : Snake) (dt : ℝ) (mouseDown : Bool) : Snake × Bool :=
  if s.dead then (s, false)
  else
    let mt := s.multiplierTimerAfter dt
    let mult := s.multiplierAfter dt
    let ang := s.angleAfter dt
    let sc := s.scoreAfter dt mouseDown
    let p := s.movedPos dt mouseDown
    if CONFIG.mapSize < p.mag then
      ({ s with multiplierTimer := mt, multiplier := mult, angle := ang,
                score := sc, pos := p, dead := true }, true)
    else
      ({ s with multiplierTimer := mt, multiplier := mult, angle := ang,
                score := sc, pos := p, path := s.pathAfter dt mouseDown,
                targetWidth := widthOfScore sc,
                width := s.width + (widthOfScore sc - s.width) * dt * 2 }, false)

/-- Food item (`class Food`); the random placement and map clamping of the
constructor stay outside the model, the fields are what pickups read. -/
structure Food where
  pos : Vector
  value : ℝ
  radius : ℝ

/-- `this.radius = 15 + (value * 3)` from the `Food` constructor. -/
noncomputable def mkFood (pos : Vector) (value : ℝ) : Food := ⟨pos, value, 15 + value * 3⟩

/-- The cheap bounding-box pre-filter of the food loop (`continue` when it fails). -/
noncomputable def foodBBoxPass (s : Snake) (f : Food) : Prop :=
  |s.pos.x - f.pos.x| ≤ s.width + f.radius ∧ |s.pos.y - f.pos.y| ≤ s.width + f.radius

/-- The exact circular pickup test `s.pos.dist(f.pos) < (s.width / 2 + f.radius)`. -/
noncomputable def foodHit (s : Snake) (f : Food) : Prop :=
  s.pos.dist f.pos < s.width / 2 + f.radius

/-- `grow(amount) { this.score += amount * this.multiplier * 10; }` -/
noncomputable def Snake.grow (s : Snake) (amount : ℝ) : Snake :=
  { s with score := s.score + amount * s.multiplier * 10 }

/-- The per-snake food loop of `checkCollisions`.  The source iterates the
food array backwards with `splice` on hit; processing the tail of the list
first reproduces that order.  The test reads only `pos`, `width` and
`multiplier`, none of which `grow` changes. -/
noncomputable def foodPass (s : Snake) : List Food → Snake × List Food
  | [] => (s, [])
  | f :: rest =>
    let r := foodPass s rest
    if ¬ foodBBoxPass r.1 f then (r.1, f :: r.2)
    else if foodHit r.1 f then (r.1.grow f.value, r.2)
    else (r.1, f :: r.2)

/-- Indices visited by a sampled loop `for (let i = 0; i < len; i += step)`:
`0, step, 2*step, ...` below `len` (empty when `step = 0`, which no caller
produces). -/
def sampleIdx (len step : ℕ) : List ℕ :=
  (List.range ((len + step - 1) / step)).map (fun k => k * step)

/-- Sampling stride of the snake-vs-snake pass:
`Math.max(2, Math.floor(s2.width / 5))`. -/
noncomputable def collStep (s2 : Snake) : ℕ := (max 2 ⌊s2.width / 5⌋).toNat

/-- Some sampled point of `s2`'s path is within
`s1.width * 0.35 + s2.width / 2` (head radius + body radius) of `s1`'s head. -/
noncomputable def hitsBody (s1 s2 : Snake) : Prop :=
  ∃ i ∈ sampleIdx s2.path.length (collStep s2),
    s1.pos.dist (s2.path.getD i ⟨0, 0⟩) < s1.width * 0.35 + s2.width / 2

/-- The `for (const s2 of nearby)` loop of the snake-vs-snake pass for one
querying snake `s1`: skip `s1` itself and dead snakes, mark `s1` dead on the
first body hit and stop scanning (`if (s1.dead) break`). -/
noncomputable def scanOne (s1 : Snake) : List Snake → Snake
  | [] => s1
  | s2 :: rest =>
    if s2.id = s1.id ∨ s2.dead then scanOne s1 rest
    else if hitsBody s1 s2 then { s1 with dead := true }
    else scanOne s1 rest

/-- Query rectangle `{x, y, w, h}`. -/
structure Rect where
  x : ℝ
  y : ℝ
  w : ℝ
  h : ℝ

/-- `class SpatialHash`: buckets keyed by integer cell coordinates. -/
structure SpatialHash (α : Type) where
  cellSize : ℝ
  grid : ℤ × ℤ → List α

variable {α : Type}

/-- The cell key `floor(x / cellSize), floor(y / cellSize)` used by `insert`. -/
noncomputable def SpatialHash.key (hsh : SpatialHash α) (p : Vector) : ℤ × ℤ :=
  (⌊p.x / hsh.cellSize⌋, ⌊p.y / hsh.cellSize⌋)

/-- `insert(obj)`: push the object onto the bucket of its position's cell
(the source reads the position from `obj.pos`; it is passed explicitly here). -/
noncomputable def SpatialHash.insertAt (hsh : SpatialHash α) (p : Vector) (a : α) :
    SpatialHash α :=
  { hsh with grid := fun k => if k = hsh.key p then hsh.grid k ++ [a] else hsh.grid k }

/-- Integer interval `[a, b]` as a list, matching `for (let x = a; x <= b; x++)`. -/
def intRange (a b : ℤ) : List ℤ :=
  (List.range (b + 1 - a).toNat).map (fun (k : ℕ) => a + (k : ℤ))

/-- `retrieve(rect)`: concatenate the buckets of every cell whose coordinates
lie between the floors of the rectangle's corners. -/
noncomputable def SpatialHash.retrieve (hsh : SpatialHash α) (r : Rect) : List α :=
  let sx := ⌊r.x / hsh.cellSize⌋
  let sy := ⌊r.y / hsh.cellSize⌋
  let ex := ⌊(r.x + r.w) / hsh.cellSize⌋
  let ey := ⌊(r.y + r.h) / hsh.cellSize⌋
  (intRange sx ex).flatMap (fun i => (intRange sy ey).flatMap (fun j => hsh.grid (i, j)))

/-- A fresh hash, as after `clear()`. -/
def SpatialHash.mkEmpty (α : Type) (cellSize : ℝ) : SpatialHash α :=
  ⟨cellSize, fun _ => []⟩

/-- A hash populated by a sequence of `insert` calls. -/
noncomputable def SpatialHash.ofList (cellSize : ℝ) (items : List (Vector × α)) :
    SpatialHash α :=
  items.foldl (fun hsh pa => hsh.insertAt pa.1 pa.2) (SpatialHash.mkEmpty α cellSize)

/-- One iteration of the snake-vs-snake `for (const s1 of allSnakes)` loop:
skip dead `s1`, retrieve the 200×200 neighborhood of its head from the hash
and run `scanOne`, writing the (possibly killed) `s1` back in place.  The
hash holds object references whose `dead` flags evolve during the pass;
dereferencing is modelled by looking the retrieved snake's id up in the
current list. -/
noncomputable def collisionStep (hash : SpatialHash Snake) (cur : List Snake) (k : ℕ) :
    List Snake :=
  match cur.get? k with
  | none => cur
  | some s1 =>
    if s1.dead then cur
    else
      let nearby := (hash.retrieve ⟨s1.pos.x - 100, s1.pos.y - 100, 200, 200⟩).filterMap
        (fun t => cur.find? (fun u => u.id = t.id))
      cur.set k (scanOne s1 nearby)

/-- The full snake-vs-snake pass of `checkCollisions`, in list order. -/
noncomputable def checkSnakeCollisions (hash : SpatialHash Snake) (snakes : List Snake) :
    List Snake :=
  (List.range snakes.length).foldl (collisionStep hash) snakes

/-- `lookDist = this.width * 4 + 200` of the bot scan. -/
noncomputable def Snake.lookDist (s : Snake) : ℝ := s.width * 4 + 200

/-- The bot's forward probe point `checkPos = pos + forward * lookDist`. -/
noncomputable def Snake.probePos (s : Snake) : Vector :=
  s.pos.add ((Vector.mk (Real.cos s.angle) (Real.sin s.angle)).mult s.lookDist)

/-- Sampling stride of the bot scan:
`Math.max(5, Math.floor(other.path.length / 10))`. -/
def botStep (other : Snake) : ℕ := max 5 (other.path.length / 10)

/-- The bot's per-neighbor danger test: some sampled path point of `other`
is within `this.width + other.width` of the probe point (`game.js:466`). -/
noncomputable def botDangerFrom (self other : Snake) : Prop :=
  ∃ i ∈ sampleIdx other.path.length (botStep other),
    self.probePos.dist (other.path.getD i ⟨0, 0⟩) < self.width + other.width

/-- Modelled from the claim's wording (spec §4.3): danger when a sampled
point is closer than the sum of the two agents' HALF-widths; used to compare
the specified threshold with the source's. -/
noncomputable def botDangerClaim (self other : Snake) : Prop :=
  ∃ i ∈ sampleIdx other.path.length (botStep other),
    self.probePos.dist (other.path.getD i ⟨0, 0⟩) < self.width / 2 + other.width / 2

/-- The `for (const other of nearby)` loop of the bot's collision-danger
scan: on the first sampled hit, set `danger`, deflect the desired heading by
`+π/2`, and break out of both loops. -/
noncomputable def botAvoid (self : Snake) : List Snake → Snake × Bool
  | [] => (self, false)
  | o :: rest =>
    if o.id = self.id ∨ o.dead then botAvoid self rest
    else if botDangerFrom self o then
      ({ self with targetAngle := self.targetAngle + Real.pi / 2 }, true)
    else botAvoid self rest

/-! ### Helper lemmas -/

theorem mag_nonneg (v : Vector) : 0 ≤ v.mag := Real.sqrt_nonneg _

theorem mag_sq_nonneg (v : Vector) : 0 ≤ v.x * v.x + v.y * v.y := by
  nlinarith [sq_nonneg v.x, sq_nonneg v.y]

theorem mem_intRange {a b i : ℤ} : i ∈ intRange a b ↔ a ≤ i ∧ i ≤ b := by
  unfold intRange
  constructor
  · intro h
    rcases List.mem_map.mp h with ⟨k, hk, hi⟩
    rw [List.mem_range] at hk
    omega
  · intro h
    apply List.mem_map.mpr
    refine ⟨(i - a).toNat, ?_, ?_⟩
    · rw [List.mem_range]
      omega
    · omega

theorem cellSize_ofList (cs : ℝ) (items : List (Vector × α)) :
    (SpatialHash.ofList cs items).cellSize = cs := by
  unfold SpatialHash.ofList
  suffices h : ∀ hsh : SpatialHash α,
      (items.foldl (fun hsh pa => hsh.insertAt pa.1 pa.2) hsh).cellSize = hsh.cellSize by
    exact h _
  induction items with
  | nil => intro hsh; rfl
  | cons f rest ih => intro hsh; exact ih _

theorem grid_insertAt_mono {hsh : SpatialHash α} {k : ℤ × ℤ} {a : α}
    (h : a ∈ hsh.grid k) (q : Vector) (b : α) : a ∈ (hsh.insertAt q b).grid k := by
  unfold SpatialHash.insertAt
  by_cases hk : k = hsh.key q
  · subst hk
    simp [h]
  · simp [hk, h]

theorem grid_foldl_mono {k : ℤ × ℤ} {a : α} (items : List (Vector × α)) :
    ∀ hsh : SpatialHash α, a ∈ hsh.grid k →
      a ∈ (items.foldl (fun hsh pa => hsh.insertAt pa.1 pa.2) hsh).grid k := by
  induction items with
  | nil => intro hsh h; exact h
  | cons f rest ih =>
    intro hsh h
    exact ih _ (grid_insertAt_mono h f.1 f.2)

theorem mem_grid_insertAt_self (hsh : SpatialHash α) (p : Vector) (a : α) :
    a ∈ (hsh.insertAt p a).grid (hsh.key p) := by
  simp [SpatialHash.insertAt]

theorem mem_ofList_grid {cs : ℝ} {items : List (Vector × α)} {p : Vector} {a : α}
    (h : (p, a) ∈ items) :
    a ∈ (SpatialHash.ofList cs items).grid (⌊p.x / cs⌋, ⌊p.y / cs⌋) := by
  unfold SpatialHash.ofList
  suffices hgen : ∀ hsh : SpatialHash α, hsh.cellSize = cs →
      a ∈ (items.foldl (fun hsh pa => hsh.insertAt pa.1 pa.2) hsh).grid (⌊p.x / cs⌋, ⌊p.y / cs⌋) by
    exact hgen _ rfl
  induction items with
  | nil => cases h
  | cons f rest ih =>
    intro hsh hcs
    rcases List.mem_cons.mp h with hf | hrest
    · subst hf
      rw [List.foldl_cons]
      apply grid_foldl_mono
      have hkey : hsh.key p = (⌊p.x / cs⌋, ⌊p.y / cs⌋) := by
        unfold SpatialHash.key
        rw [hcs]
      rw [← hkey]
      exact mem_grid_insertAt_self hsh p a
    · exact ih hrest _ hcs

/-! ### Claim theorems -/

/-- Claim C9: normalizing the zero vector returns the zero vector (no
division by zero), and normalizing any vector of nonzero magnitude yields a
vector of magnitude exactly 1 in exact arithmetic. -/
theorem c9_norm_zero_safe :
    (∀ v : Vector, v.mag = 0 → v.norm = ⟨0, 0⟩) ∧
    (∀ v : Vector, v.mag ≠ 0 → (v.norm).mag = 1) := by
  constructor
  · intro v h
    simp [Vector.norm, h]
  · intro v h
    have hs : 0 ≤ v.x * v.x + v.y * v.y := mag_sq_nonneg v
    have hm0 : 0 < v.mag := lt_of_le_of_ne (mag_nonneg v) (Ne.symm h)
    have hmm : v.mag * v.mag = v.x * v.x + v.y * v.y := Real.mul_self_sqrt hs
    have hnorm : v.norm = ⟨v.x / v.mag, v.y / v.mag⟩ := by
      simp [Vector.norm, h]
    rw [hnorm]
    show Real.sqrt (v.x / v.mag * (v.x / v.mag) + v.y / v.mag * (v.y / v.mag)) = 1
    have harg : v.x / v.mag * (v.x / v.mag) + v.y / v.mag * (v.y / v.mag) = 1 := by
      field_simp
      linarith [hmm]
    rw [harg, Real.sqrt_one]

/-- Witness for C9 at concrete inputs `(0,0)` and `(3,4)`. -/
theorem c9_norm_zero_safe_witness :
    (Vector.mk 0 0).norm = ⟨0, 0⟩ ∧ ((Vector.mk 3 4).norm).mag = 1 := by
  constructor
  · exact c9_norm_zero_safe.1 ⟨0, 0⟩ (by simp [Vector.mag])
  · refine c9_norm_zero_safe.2 ⟨3, 4⟩ ?_
    have h5 : (Vector.mk 3 4).mag = 5 := by
      show Real.sqrt ((3:ℝ) * 3 + 4 * 4) = 5
      rw [show (3:ℝ) * 3 + 4 * 4 = 5 ^ 2 by norm_num]
      exact Real.sqrt_sq (by norm_num)
    rw [h5]
    norm_num

/-- Claim C5: the score-derived target width is
`min (500, 15 + log10 (max 10 score) * 25)`; at score 100 it is exactly 65,
and it is monotone non-decreasing in score. -/
theorem c5_width_law :
    (∀ s : Snake, s.calculateWidth = min 500 (15 + Real.logb 10 (max 10 s.score) * 25)) ∧
    (∀ s : Snake, s.score = 100 → s.calculateWidth = 65) ∧
    (∀ s t : Snake, s.score ≤ t.score → s.calculateWidth ≤ t.calculateWidth) := by
  refine ⟨fun s => rfl, ?_, ?_⟩
  · intro s h
    have hlog100 : Real.logb 10 (100 : ℝ) = 2 := by
      have hlog : Real.log (100 : ℝ) = 2 * Real.log 10 := by
        rw [show (100:ℝ) = 10 ^ (2:ℕ) by norm_num, Real.log_pow]
        norm_num
      rw [Real.logb, hlog, mul_div_assoc,
        div_self (ne_of_gt (Real.log_pos (by norm_num))), mul_one]
    unfold Snake.calculateWidth widthOfScore
    rw [h, max_eq_right (by norm_num : (10:ℝ) ≤ 100), hlog100]
    norm_num
  · intro s t h
    unfold Snake.calculateWidth widthOfScore
    apply min_le_min le_rfl
    have hx : (0:ℝ) < max 10 s.score := lt_of_lt_of_le (by norm_num) (le_max_left _ _)
    have hmono := Real.logb_le_logb_of_le (by norm_num : (1:ℝ) < 10) hx
      (max_le_max le_rfl h)
    linarith

/-- Witness for C5 at score 100 and at the score pair (100, 200). -/
theorem c5_width_law_witness :
    (Snake.spawn 0 ⟨0, 0⟩ 0 false 100).calculateWidth = 65 ∧
    (Snake.spawn 0 ⟨0, 0⟩ 0 false 100).calculateWidth ≤
      (Snake.spawn 0 ⟨0, 0⟩ 0 false 200).calculateWidth := by
  constructor
  · exact c5_width_law.2.1 _ rfl
  · exact c5_width_law.2.2 _ _ (by norm_num [Snake.spawn])

/-- Claim C8: a query rectangle that fully contains the cell of an inserted
agent returns that agent (no false negatives), and a query rectangle whose
cell range touches only unoccupied cells returns the empty list. -/
theorem c8_grid_query (α : Type) :
    (∀ (cs : ℝ) (items : List (Vector × α)) (r : Rect) (p : Vector) (a : α),
      0 < cs → (p, a) ∈ items →
      r.x ≤ (⌊p.x / cs⌋ : ℝ) * cs → ((⌊p.x / cs⌋ : ℝ) + 1) * cs ≤ r.x + r.w →
      r.y ≤ (⌊p.y / cs⌋ : ℝ) * cs → ((⌊p.y / cs⌋ : ℝ) + 1) * cs ≤ r.y + r.h →
      a ∈ (SpatialHash.ofList cs items).retrieve r) ∧
    (∀ (hsh : SpatialHash α) (r : Rect), 0 ≤ r.w → 0 ≤ r.h →
      (∀ i j : ℤ, ⌊r.x / hsh.cellSize⌋ ≤ i → i ≤ ⌊(r.x + r.w) / hsh.cellSize⌋ →
        ⌊r.y / hsh.cellSize⌋ ≤ j → j ≤ ⌊(r.y + r.h) / hsh.cellSize⌋ →
        hsh.grid (i, j) = []) →
      hsh.retrieve r = []) := by
  constructor
  · intro cs items r p a hcs hmem hx1 hx2 hy1 hy2
    have hkx1 : ⌊r.x / cs⌋ ≤ ⌊p.x / cs⌋ := by
      calc ⌊r.x / cs⌋ ≤ ⌊((⌊p.x / cs⌋ : ℝ))⌋ := by
            apply Int.floor_mono
            rw [div_le_iff₀ hcs]
            exact hx1
        _ = ⌊p.x / cs⌋ := Int.floor_intCast _
    have hkx2 : ⌊p.x / cs⌋ ≤ ⌊(r.x + r.w) / cs⌋ := by
      have : (⌊p.x / cs⌋ : ℝ) + 1 ≤ (r.x + r.w) / cs := by
        rw [le_div_iff₀ hcs]
        exact hx2
      have h2 : ⌊p.x / cs⌋ + 1 ≤ ⌊(r.x + r.w) / cs⌋ := by
        apply Int.le_floor.mpr
        push_cast
        exact this
      omega
    have hky1 : ⌊r.y / cs⌋ ≤ ⌊p.y / cs⌋ := by
      calc ⌊r.y / cs⌋ ≤ ⌊((⌊p.y / cs⌋ : ℝ))⌋ := by
            apply Int.floor_mono
            rw [div_le_iff₀ hcs]
            exact hy1
        _ = ⌊p.y / cs⌋ := Int.floor_intCast _
    have hky2 : ⌊p.y / cs⌋ ≤ ⌊(r.y + r.h) / cs⌋ := by
      have : (⌊p.y / cs⌋ : ℝ) + 1 ≤ (r.y + r.h) / cs := by
        rw [le_div_iff₀ hcs]
        exact hy2
      have h2 : ⌊p.y / cs⌋ + 1 ≤ ⌊(r.y + r.h) / cs⌋ := by
        apply Int.le_floor.mpr
        push_cast
        exact this
      omega
    have hgrid := @mem_ofList_grid α cs items p a hmem
    unfold SpatialHash.retrieve
    rw [cellSize_ofList]
    apply List.mem_flatMap.mpr
    refine ⟨⌊p.x / cs⌋, mem_intRange.mpr ⟨hkx1, hkx2⟩, ?_⟩
    apply List.mem_flatMap.mpr
    exact ⟨⌊p.y / cs⌋, mem_intRange.mpr ⟨hky1, hky2⟩, hgrid⟩
  · intro hsh r _ _ hempty
    unfold SpatialHash.retrieve
    apply List.eq_nil_iff_forall_not_mem.mpr
    intro a ha
    rcases List.mem_flatMap.mp ha with ⟨i, hi, ha2⟩
    rcases List.mem_flatMap.mp ha2 with ⟨j, hj, ha3⟩
    rcases mem_intRange.mp hi with ⟨hi1, hi2⟩
    rcases mem_intRange.mp hj with ⟨hj1, hj2⟩
    rw [hempty i j hi1 hi2 hj1 hj2] at ha3
    cases ha3

/-- Witness for C8: one agent at (500, 500) in a 1000-cell grid, queried with
the cell-covering rectangle [0,1000]², and the empty-grid query. -/
theorem c8_grid_query_witness :
    (7 : ℕ) ∈ (SpatialHash.ofList 1000 [(⟨500, 500⟩, 7)]).retrieve ⟨0, 0, 1000, 1000⟩ ∧
    (SpatialHash.mkEmpty ℕ 1000).retrieve ⟨0, 0, 0, 0⟩ = [] := by
  have hfl : ⌊(500:ℝ) / 1000⌋ = 0 := by
    apply Int.floor_eq_iff.mpr
    exact ⟨by norm_num, by norm_num⟩
  constructor
  · apply (c8_grid_query ℕ).1 1000 [(⟨500, 500⟩, 7)] ⟨0, 0, 1000, 1000⟩ ⟨500, 500⟩ 7
      (by norm_num) (by simp)
    all_goals
      simp only [hfl]
      norm_num
  · exact (c8_grid_query ℕ).2 (SpatialHash.mkEmpty ℕ 1000) ⟨0, 0, 0, 0⟩ le_rfl le_rfl
      (fun i j _ _ _ _ => rfl)

/-- A concrete agent with the given head position, width, score and
multiplier, used to evaluate the claims on explicit inputs. -/
noncomputable def testSnake (pos : Vector) (width score mult : ℝ) : Snake :=
  { id := 1
    isBot := false
    pos := pos
    angle := 0
    targetAngle := 0
    score := score
    width := width
    targetWidth := width
    path := []
    dead := false
    multiplier := mult
    multiplierTimer := 0
    wantBoost := false
    changeDirTimer := 0
    boostCooldown := 0 }

theorem update_dead {s : Snake} (hd : s.dead = true) (dt : ℝ) (md : Bool) :
    s.update dt md = (s, false) := by
  unfold Snake.update
  rw [if_pos hd]

theorem update_bounds_death {s : Snake} {dt : ℝ} {md : Bool}
    (hd : s.dead = false) (hout : CONFIG.mapSize < (s.movedPos dt md).mag) :
    s.update dt md =
      ({ s with multiplierTimer := s.multiplierTimerAfter dt,
                multiplier := s.multiplierAfter dt,
                angle := s.angleAfter dt,
                score := s.scoreAfter dt md,
                pos := s.movedPos dt md,
                dead := true }, true) := by
  unfold Snake.update
  rw [if_neg (by simp [hd]), if_pos hout]

theorem update_normal {s : Snake} {dt : ℝ} {md : Bool}
    (hd : s.dead = false) (hin : ¬ CONFIG.mapSize < (s.movedPos dt md).mag) :
    s.update dt md =
      ({ s with multiplierTimer := s.multiplierTimerAfter dt,
                multiplier := s.multiplierAfter dt,
                angle := s.angleAfter dt,
                score := s.scoreAfter dt md,
                pos := s.movedPos dt md,
                path := s.pathAfter dt md,
                targetWidth := widthOfScore (s.scoreAfter dt md),
                width := s.width + (widthOfScore (s.scoreAfter dt md) - s.width) * dt * 2 },
        false) := by
  unfold Snake.update
  rw [if_neg (by simp [hd]), if_neg hin]

theorem update_score (s : Snake) (dt : ℝ) (md : Bool) (hd : s.dead = false) :
    (s.update dt md).1.score = s.scoreAfter dt md := by
  by_cases hout : CONFIG.mapSize < (s.movedPos dt md).mag
  · rw [update_bounds_death hd hout]
  · rw [update_normal hd hout]

theorem path1After_cases (s : Snake) (dt : ℝ) (md : Bool) :
    s.path1After dt md = s.path ∨
    s.path1After dt md = (s.movedPos dt md :: s.path).take CONFIG.maxPathPoints := by
  unfold Snake.path1After
  split
  · exact Or.inr rfl
  · split
    · exact Or.inr rfl
    · exact Or.inl rfl

theorem pathAfter_cases (s : Snake) (dt : ℝ) (md : Bool) :
    s.pathAfter dt md = s.path ∨
    s.pathAfter dt md = (s.movedPos dt md :: s.path).take CONFIG.maxPathPoints ∨
    s.pathAfter dt md = s.path.dropLast ∨
    s.pathAfter dt md
      = ((s.movedPos dt md :: s.path).take CONFIG.maxPathPoints).dropLast := by
  unfold Snake.pathAfter
  rcases path1After_cases s dt md with h | h <;> rw [h]
  · split
    · exact Or.inr (Or.inr (Or.inl rfl))
    · exact Or.inl rfl
  · split
    · exact Or.inr (Or.inr (Or.inr rfl))
    · exact Or.inr (Or.inl rfl)

theorem update_path_cases (s : Snake) (dt : ℝ) (md : Bool) :
    (s.update dt md).1.path = s.path ∨
    (s.update dt md).1.path = (s.movedPos dt md :: s.path).take CONFIG.maxPathPoints ∨
    (s.update dt md).1.path = s.path.dropLast ∨
    (s.update dt md).1.path
      = ((s.movedPos dt md :: s.path).take CONFIG.maxPathPoints).dropLast := by
  by_cases hd : s.dead = true
  · rw [update_dead hd]
    exact Or.inl rfl
  · have hd2 : s.dead = false := by
      cases h : s.dead
      · rfl
      · exact absurd h hd
    by_cases hout : CONFIG.mapSize < (s.movedPos dt md).mag
    · rw [update_bounds_death hd2 hout]
      exact Or.inl rfl
    · rw [update_normal hd2 hout]
      exact pathAfter_cases s dt md

/-- Claim C1: once the per-tick translation has put the head beyond the map
radius, the update marks the agent dead on the same tick, fires the
death-effects branch, keeps the translated position, and skips the
path-management and width-smoothing steps. -/
theorem c1_bounds_death (s : Snake) (dt : ℝ) (md : Bool)
    (hd : s.dead = false) (hout : CONFIG.mapSize < (s.movedPos dt md).mag) :
    (s.update dt md).2 = true ∧
    (s.update dt md).1.dead = true ∧
    (s.update dt md).1.pos = s.movedPos dt md ∧
    (s.update dt md).1.path = s.path ∧
    (s.update dt md).1.width = s.width ∧
    (s.update dt md).1.targetWidth = s.targetWidth := by
  rw [update_bounds_death hd hout]
  exact ⟨rfl, rfl, rfl, rfl, rfl, rfl⟩

/-- Witness for C1: an agent already at (200000, 0) with `dt = 0`. -/
theorem c1_bounds_death_witness :
    ((testSnake ⟨200000, 0⟩ 65 100 1).update 0 false).2 = true ∧
    ((testSnake ⟨200000, 0⟩ 65 100 1).update 0 false).1.dead = true ∧
    ((testSnake ⟨200000, 0⟩ 65 100 1).update 0 false).1.path = [] := by
  have hmoved : (testSnake ⟨200000, 0⟩ 65 100 1).movedPos 0 false = ⟨200000, 0⟩ := by
    simp [Snake.movedPos, Vector.add, Vector.mult, testSnake]
  have hout : CONFIG.mapSize < ((testSnake ⟨200000, 0⟩ 65 100 1).movedPos 0 false).mag := by
    rw [hmoved]
    show CONFIG.mapSize < Real.sqrt ((200000:ℝ) * 200000 + 0 * 0)
    rw [show ((200000:ℝ) * 200000 + 0 * 0) = 200000 ^ 2 by norm_num,
      Real.sqrt_sq (by norm_num : (0:ℝ) ≤ 200000)]
    norm_num [CONFIG.mapSize]
  have h := c1_bounds_death (testSnake ⟨200000, 0⟩ 65 100 1) 0 false rfl hout
  exact ⟨h.1, h.2.1, h.2.2.2.1⟩

/-- Claim C3: with `0 ≤ dt ≤ 0.05` (the caller's clamp) and a non-negative
score, the score after an update is non-negative; moreover the only way the
update changes the score is the boost deduction `- dt * 25`, taken only when
the score is strictly above the boost floor 50. -/
theorem c3_score_nonneg (s : Snake) (dt : ℝ) (md : Bool)
    (h0 : 0 ≤ s.score) (_h1 : 0 ≤ dt) (h2 : dt ≤ 0.05) :
    0 ≤ (s.update dt md).1.score ∧
    ((s.update dt md).1.score ≠ s.score →
      50 < s.score ∧ (s.update dt md).1.score = s.score - dt * 25) := by
  by_cases hd : s.dead = true
  · rw [update_dead hd]
    exact ⟨h0, fun hne => absurd rfl hne⟩
  · have hd2 : s.dead = false := by
      cases h : s.dead
      · rfl
      · exact absurd h hd
    rw [update_score s dt md hd2]
    unfold Snake.scoreAfter
    split
    · rename_i hb
      have hcost : dt * 25 ≤ 1.25 := by nlinarith [h2]
      exact ⟨by linarith [hb.2], fun _ => ⟨hb.2, rfl⟩⟩
    · exact ⟨h0, fun hne => absurd rfl hne⟩

/-- Witness for C3: a boosting agent with score 100 and `dt = 0.04`. -/
theorem c3_score_nonneg_witness :
    0 ≤ ((testSnake ⟨0, 0⟩ 65 100 1).update 0.04 true).1.score := by
  exact (c3_score_nonneg (testSnake ⟨0, 0⟩ 65 100 1) 0.04 true
    (by norm_num [testSnake]) (by norm_num) (by norm_num)).1

theorem one_le_logb_max (score : ℝ) : 1 ≤ Real.logb 10 (max 10 score) := by
  have h10 : Real.logb 10 (10:ℝ) = 1 := Real.logb_self_eq_one (by norm_num)
  calc (1:ℝ) = Real.logb 10 10 := h10.symm
    _ ≤ Real.logb 10 (max 10 score) :=
      Real.logb_le_logb_of_le (by norm_num) (by norm_num) (le_max_left _ _)

theorem widthOfScore_ge_40 (score : ℝ) : 40 ≤ widthOfScore score := by
  unfold widthOfScore
  have := one_le_logb_max score
  refine le_min (by norm_num) (by linarith)

/-- Claim C4: the path never exceeds `maxPathPoints = 400`: the constructor
pre-fill produces at most 400 points for every starting score ≥ 100, every
update keeps a path of at most 400 points, and points are only ever dropped
from the oldest end — the resulting path is a prefix of the old path or of
the old path with the new head point pushed in front. -/
theorem c4_path_bound :
    (∀ (id : ℕ) (pos : Vector) (angle : ℝ) (bot : Bool) (score : ℝ), 100 ≤ score →
      (Snake.spawn id pos angle bot score).path.length ≤ CONFIG.maxPathPoints) ∧
    (∀ (s : Snake) (dt : ℝ) (md : Bool), s.path.length ≤ CONFIG.maxPathPoints →
      (s.update dt md).1.path.length ≤ CONFIG.maxPathPoints) ∧
    (∀ (s : Snake) (dt : ℝ) (md : Bool),
      (s.update dt md).1.path <+: s.path ∨
      (s.update dt md).1.path <+: (s.movedPos dt md :: s.path)) := by
  refine ⟨?_, ?_, ?_⟩
  · intro id pos angle bot score hscore
    show (prefillPath pos angle (targetLengthOfScore score) (widthOfScore score / 2)).length
      ≤ CONFIG.maxPathPoints
    have hw : 40 ≤ widthOfScore score := widthOfScore_ge_40 score
    have hsp : (0:ℝ) < widthOfScore score / 2 := by linarith
    have hL : targetLengthOfScore score ≤ 8000 := min_le_left _ _
    unfold prefillPath
    rw [List.length_map, List.length_range]
    unfold prefillCount
    rw [if_pos hsp]
    show ⌈targetLengthOfScore score / (widthOfScore score / 2)⌉₊ ≤ 400
    apply Nat.ceil_le.mpr
    rw [div_le_iff₀ hsp]
    push_cast
    nlinarith
  · intro s dt md hlen
    rcases update_path_cases s dt md with h | h | h | h <;> rw [h]
    · exact hlen
    · rw [List.length_take]
      exact le_trans (min_le_left _ _) le_rfl
    · rw [List.length_dropLast]
      omega
    · rw [List.length_dropLast, List.length_take]
      omega
  · intro s dt md
    rcases update_path_cases s dt md with h | h | h | h <;> rw [h]
    · exact Or.inl List.prefix_rfl
    · exact Or.inr (List.take_prefix _ _)
    · exact Or.inl (List.dropLast_prefix _)
    · exact Or.inr ((List.dropLast_prefix _).trans (List.take_prefix _ _))

/-- Witness for C4: the pre-fill bound at score 100 and the update bound on
an agent with an empty path. -/
theorem c4_path_bound_witness :
    (Snake.spawn 0 ⟨0, 0⟩ 0 false 100).path.length ≤ CONFIG.maxPathPoints ∧
    (((testSnake ⟨0, 0⟩ 65 100 1).update 0 false).1.path.length ≤ CONFIG.maxPathPoints) := by
  constructor
  · exact c4_path_bound.1 0 ⟨0, 0⟩ 0 false 100 (by norm_num)
  · exact c4_path_bound.2.1 (testSnake ⟨0, 0⟩ 65 100 1) 0 false
      (by simp [testSnake, CONFIG.maxPathPoints])

theorem grow_zero (s : Snake) : s.grow 0 = s := by
  unfold Snake.grow
  rw [show s.score + 0 * s.multiplier * 10 = s.score by ring]

theorem grow_grow (s : Snake) (a b : ℝ) : (s.grow a).grow b = s.grow (a + b) := by
  simp only [Snake.grow]
  congr 1
  ring

theorem abs_sub_le_dist (v w : Vector) : |v.x - w.x| ≤ v.dist w := by
  unfold Vector.dist
  rw [Real.le_sqrt (abs_nonneg _) (by positivity), sq_abs]
  nlinarith [sq_nonneg (v.y - w.y)]

theorem abs_sub_le_dist_y (v w : Vector) : |v.y - w.y| ≤ v.dist w := by
  unfold Vector.dist
  rw [Real.le_sqrt (abs_nonneg _) (by positivity), sq_abs]
  nlinarith [sq_nonneg (v.x - w.x)]

/-- A food item passing the exact circular test also passes the cheap
bounding-box pre-filter, so the pre-filter never hides a pickup. -/
theorem foodHit_bbox {s : Snake} {f : Food} (hw : 0 ≤ s.width) (h : foodHit s f) :
    foodBBoxPass s f := by
  unfold foodHit at h
  unfold foodBBoxPass
  constructor
  · have := abs_sub_le_dist s.pos f.pos
    linarith
  · have := abs_sub_le_dist_y s.pos f.pos
    linarith

theorem foodPass_cons (s : Snake) (f : Food) (rest : List Food) :
    foodPass s (f :: rest) =
      if ¬ foodBBoxPass (foodPass s rest).1 f then
        ((foodPass s rest).1, f :: (foodPass s rest).2)
      else if foodHit (foodPass s rest).1 f then
        ((foodPass s rest).1.grow f.value, (foodPass s rest).2)
      else ((foodPass s rest).1, f :: (foodPass s rest).2) := rfl

/-- `grow` leaves every field the pickup tests read unchanged. -/
theorem foodBBoxPass_grow (s : Snake) (a : ℝ) (f : Food) :
    foodBBoxPass (s.grow a) f ↔ foodBBoxPass s f := Iff.rfl

theorem foodHit_grow (s : Snake) (a : ℝ) (f : Food) :
    foodHit (s.grow a) f ↔ foodHit s f := Iff.rfl

theorem foodPass_characterization (s : Snake) (hw : 0 ≤ s.width) :
    ∀ foods : List Food,
      (foodPass s foods).1
          = s.grow (((foods.filter (fun f => decide (foodHit s f))).map Food.value).sum) ∧
      (foodPass s foods).2 = foods.filter (fun f => decide (¬ foodHit s f)) := by
  intro foods
  induction foods with
  | nil =>
    constructor
    · show s = s.grow (([] : List ℝ).sum)
      rw [List.sum_nil, grow_zero]
    · rfl
  | cons f rest ih =>
    obtain ⟨ih1, ih2⟩ := ih
    rw [foodPass_cons, ih1, ih2]
    simp only [foodBBoxPass_grow, foodHit_grow]
    by_cases hhit : foodHit s f
    · have hbb : foodBBoxPass s f := foodHit_bbox hw hhit
      rw [if_neg (not_not_intro hbb), if_pos hhit, grow_grow]
      constructor
      · show Snake.grow _ _ = Snake.grow _ _
        congr 1
        rw [List.filter_cons_of_pos]
        · rw [List.map_cons, List.sum_cons]
          ring
        · exact decide_eq_true hhit
      · show _ = List.filter _ (f :: rest)
        rw [List.filter_cons_of_neg]
        simp [hhit]
    · have hsame :
          (s.grow ((List.map Food.value (List.filter (fun f => decide (foodHit s f)) rest)).sum),
            f :: List.filter (fun f => decide (¬ foodHit s f)) rest).1
            = s.grow ((List.map Food.value
                (List.filter (fun f => decide (foodHit s f)) (f :: rest))).sum) ∧
          (s.grow ((List.map Food.value (List.filter (fun f => decide (foodHit s f)) rest)).sum),
            f :: List.filter (fun f => decide (¬ foodHit s f)) rest).2
            = List.filter (fun f => decide (¬ foodHit s f)) (f :: rest) := by
        constructor
        · show Snake.grow _ _ = Snake.grow _ _
          congr 2
          rw [List.filter_cons_of_neg]
          simp [hhit]
        · show _ = List.filter _ (f :: rest)
          rw [List.filter_cons_of_pos]
          simp [hhit]
      by_cases hbb : foodBBoxPass s f
      · rw [if_neg (not_not_intro hbb), if_neg hhit]
        exact hsame
      · rw [if_pos hbb]
        exact hsame

/-- Claim C6: for a live agent, the food loop picks up exactly the food
items that pass the exact circular test (the bounding-box pre-filter never
hides one), each pickup adds `value * multiplier * 10` to the score via
`grow`, and exactly the picked items are removed; in particular a food of
value 1 picked up with multiplier 5 adds exactly 50. -/
theorem c6_food_pickup :
    (∀ (s : Snake) (foods : List Food), 0 ≤ s.width →
      (foodPass s foods).1
          = s.grow (((foods.filter (fun f => decide (foodHit s f))).map Food.value).sum) ∧
      (foodPass s foods).2 = foods.filter (fun f => decide (¬ foodHit s f))) ∧
    (∀ (s : Snake) (f : Food), 0 ≤ s.width → s.multiplier = 5 → f.value = 1 →
      foodHit s f →
      (foodPass s [f]).1.score = s.score + 50 ∧ (foodPass s [f]).2 = []) := by
  constructor
  · intro s foods hw
    exact foodPass_characterization s hw foods
  · intro s f hw hm hv hhit
    obtain ⟨h1, h2⟩ := foodPass_characterization s hw [f]
    constructor
    · rw [h1]
      show s.score + ((List.filter (fun f => decide (foodHit s f)) [f]).map Food.value).sum
          * s.multiplier * 10 = s.score + 50
      rw [List.filter_cons_of_pos]
      · simp only [List.filter_nil, List.map_cons, List.map_nil, List.sum_cons,
          List.sum_nil, hv, hm]
        ring
      · exact decide_eq_true hhit
    · rw [h2, List.filter_cons_of_neg]
      · rfl
      · simp [hhit]

/-- Witness for C6: an agent of width 0 and multiplier 5 on top of a single
food item of value 1. -/
theorem c6_food_pickup_witness :
    (foodPass (testSnake ⟨0, 0⟩ 0 100 5) [⟨⟨0, 0⟩, 1, 18⟩]).1.score
        = (testSnake ⟨0, 0⟩ 0 100 5).score + 50 ∧
    (foodPass (testSnake ⟨0, 0⟩ 0 100 5) [⟨⟨0, 0⟩, 1, 18⟩]).2 = [] := by
  apply c6_food_pickup.2 (testSnake ⟨0, 0⟩ 0 100 5) ⟨⟨0, 0⟩, 1, 18⟩ le_rfl rfl rfl
  unfold foodHit Vector.dist testSnake
  norm_num [Real.sqrt_zero]

theorem scanOne_cons (s1 s2 : Snake) (rest : List Snake) :
    scanOne s1 (s2 :: rest) =
      if s2.id = s1.id ∨ s2.dead then scanOne s1 rest
      else if hitsBody s1 s2 then { s1 with dead := true }
      else scanOne s1 rest := rfl

/-- `scanOne` either leaves the querying snake alone or only sets its `dead`
flag; it writes to no other snake. -/
theorem scanOne_cases (s1 : Snake) :
    ∀ l : List Snake, scanOne s1 l = s1 ∨ scanOne s1 l = { s1 with dead := true } := by
  intro l
  induction l with
  | nil => exact Or.inl rfl
  | cons s2 rest ih =>
    rw [scanOne_cons]
    split
    · exact ih
    · split
      · exact Or.inr rfl
      · exact ih

theorem scanOne_first_hit (s1 : Snake) :
    ∀ (pre : List Snake) (s2 : Snake) (post : List Snake),
      (∀ t ∈ pre, t.id = s1.id ∨ t.dead = true ∨ ¬ hitsBody s1 t) →
      s2.id ≠ s1.id → s2.dead = false → hitsBody s1 s2 →
      scanOne s1 (pre ++ s2 :: post) = { s1 with dead := true } := by
  intro pre
  induction pre with
  | nil =>
    intro s2 post _ hid hdead hhit
    rw [List.nil_append, scanOne_cons, if_neg (by simp [hid, hdead]), if_pos hhit]
  | cons t pre ih =>
    intro s2 post hpre hid hdead hhit
    rw [List.cons_append, scanOne_cons]
    by_cases hskip : t.id = s1.id ∨ t.dead = true
    · rw [if_pos hskip]
      exact ih s2 post (fun u hu => hpre u (List.mem_cons_of_mem t hu)) hid hdead hhit
    · rw [if_neg hskip]
      have hnohit : ¬ hitsBody s1 t := by
        rcases hpre t (List.mem_cons_self t pre) with h | h | h
        · exact absurd (Or.inl h) hskip
        · exact absurd (Or.inr h) hskip
        · exact h
      rw [if_neg hnohit]
      exact ih s2 post (fun u hu => hpre u (List.mem_cons_of_mem t hu)) hid hdead hhit

theorem collisionStep_entry (hash : SpatialHash Snake) (cur : List Snake) (k j : ℕ)
    (s : Snake) (h : cur.get? j = some s) :
    (collisionStep hash cur k).get? j = some s ∨
    (collisionStep hash cur k).get? j = some { s with dead := true } := by
  unfold collisionStep
  cases hk : cur.get? k with
  | none => exact Or.inl h
  | some s1 =>
    dsimp only
    by_cases hdead : s1.dead = true
    · rw [if_pos hdead]
      exact Or.inl h
    · rw [if_neg hdead]
      by_cases hkj : k = j
      · subst hkj
        have hs1 : s1 = s := by
          rw [hk] at h
          exact Option.some.inj h
        rw [List.get?_set_eq, hk]
        rcases scanOne_cases s1 ((hash.retrieve
            ⟨s1.pos.x - 100, s1.pos.y - 100, 200, 200⟩).filterMap
              (fun t => cur.find? (fun u => u.id = t.id))) with hc | hc
        · left
          show some (scanOne s1 _) = some s
          rw [hc, hs1]
        · right
          show some (scanOne s1 _) = some { s with dead := true }
          rw [hc, hs1]
      · rw [List.get?_set_ne _ _ hkj]
        exact Or.inl h

theorem foldl_collisionStep_entry (hash : SpatialHash Snake) :
    ∀ (ks : List ℕ) (cur : List Snake) (j : ℕ) (s : Snake),
      cur.get? j = some s →
      (ks.foldl (collisionStep hash) cur).get? j = some s ∨
      (ks.foldl (collisionStep hash) cur).get? j = some { s with dead := true } := by
  intro ks
  induction ks with
  | nil =>
    intro cur j s h
    exact Or.inl h
  | cons k ks ih =>
    intro cur j s h
    rw [List.foldl_cons]
    rcases collisionStep_entry hash cur k j s h with h2 | h2
    · exact ih _ j s h2
    · rcases ih _ j { s with dead := true } h2 with h3 | h3
      · exact Or.inr h3
      · exact Or.inr h3

/-- Claim C2: in the agent-vs-agent pass, when some sampled point of the
body-owner `s2` is within `s1.width * 0.35 + s2.width / 2` of the querying
head `s1` (and `s2` is the first such live neighbor), `scanOne` returns `s1`
with only its `dead` flag set and never looks at the neighbors after `s2`;
and across the whole pass every agent's entry is either unchanged or merely
has its `dead` flag set — the body-owner's alive flag is never touched by
another agent's scan. -/
theorem c2_collision_asymmetry :
    (∀ (s1 : Snake) (pre : List Snake) (s2 : Snake) (post : List Snake),
      (∀ t ∈ pre, t.id = s1.id ∨ t.dead = true ∨ ¬ hitsBody s1 t) →
      s2.id ≠ s1.id → s2.dead = false → hitsBody s1 s2 →
      scanOne s1 (pre ++ s2 :: post) = { s1 with dead := true } ∧
      scanOne s1 (pre ++ s2 :: post) = scanOne s1 (pre ++ [s2])) ∧
    (∀ (hash : SpatialHash Snake) (snakes : List Snake) (j : ℕ) (s : Snake),
      snakes.get? j = some s →
      (checkSnakeCollisions hash snakes).get? j = some s ∨
      (checkSnakeCollisions hash snakes).get? j = some { s with dead := true }) := by
  constructor
  · intro s1 pre s2 post hpre hid hdead hhit
    constructor
    · exact scanOne_first_hit s1 pre s2 post hpre hid hdead hhit
    · rw [scanOne_first_hit s1 pre s2 post hpre hid hdead hhit,
        scanOne_first_hit s1 pre s2 [] hpre hid hdead hhit]
  · intro hash snakes j s h
    exact foldl_collisionStep_entry hash (List.range snakes.length) snakes j s h

/-- Querying agent for the C2 witness: head at the origin, width 10. -/
noncomputable def s1w : Snake := testSnake ⟨0, 0⟩ 10 100 1

/-- Body-owning agent for the C2 witness: a single path point at (5, 0). -/
noncomputable def s2w : Snake := { testSnake ⟨0, 0⟩ 10 100 1 with id := 2, path := [⟨5, 0⟩] }

theorem hitsBody_s1w_s2w : hitsBody s1w s2w := by
  have hstep : collStep s2w = 2 := by
    show (max 2 ⌊(10:ℝ) / 5⌋).toNat = 2
    rw [show (10:ℝ) / 5 = ((2:ℤ) : ℝ) by norm_num, Int.floor_intCast]
    rfl
  unfold hitsBody
  rw [hstep]
  refine ⟨0, ?_, ?_⟩
  · show 0 ∈ sampleIdx 1 2
    decide
  · show Real.sqrt (((0:ℝ) - 5) ^ 2 + ((0:ℝ) - 0) ^ 2) < (10:ℝ) * 0.35 + 10 / 2
    rw [show ((0:ℝ) - 5) ^ 2 + ((0:ℝ) - 0) ^ 2 = 5 ^ 2 by norm_num,
      Real.sqrt_sq (by norm_num : (0:ℝ) ≤ 5)]
    norm_num

/-- Witness for C2: the concrete two-agent first-hit collision, and the
pass-level only-the-dead-flag-changes property on a one-agent list. -/
theorem c2_collision_asymmetry_witness :
    scanOne s1w [s2w] = { s1w with dead := true } ∧
    ((checkSnakeCollisions (SpatialHash.mkEmpty Snake 1000) [s1w]).get? 0 = some s1w ∨
     (checkSnakeCollisions (SpatialHash.mkEmpty Snake 1000) [s1w]).get? 0
        = some { s1w with dead := true }) := by
  constructor
  · exact (c2_collision_asymmetry.1 s1w [] s2w []
      (by intro t ht; cases ht) (by decide) rfl hitsBody_s1w_s2w).1
  · exact c2_collision_asymmetry.2 (SpatialHash.mkEmpty Snake 1000) [s1w] 0 s1w rfl

theorem botAvoid_cons (self o : Snake) (rest : List Snake) :
    botAvoid self (o :: rest) =
      if o.id = self.id ∨ o.dead then botAvoid self rest
      else if botDangerFrom self o then
        ({ self with targetAngle := self.targetAngle + Real.pi / 2 }, true)
      else botAvoid self rest := rfl

theorem botAvoid_no_hit (self : Snake) :
    ∀ l : List Snake,
      (∀ t ∈ l, t.id = self.id ∨ t.dead = true ∨ ¬ botDangerFrom self t) →
      botAvoid self l = (self, false) := by
  intro l
  induction l with
  | nil =>
    intro _
    rfl
  | cons t rest ih =>
    intro hl
    rw [botAvoid_cons]
    by_cases hskip : t.id = self.id ∨ t.dead = true
    · rw [if_pos hskip]
      exact ih (fun u hu => hl u (List.mem_cons_of_mem t hu))
    · rw [if_neg hskip]
      have hnohit : ¬ botDangerFrom self t := by
        rcases hl t (List.mem_cons_self t rest) with h | h | h
        · exact absurd (Or.inl h) hskip
        · exact absurd (Or.inr h) hskip
        · exact h
      rw [if_neg hnohit]
      exact ih (fun u hu => hl u (List.mem_cons_of_mem t hu))

theorem botAvoid_first_hit (self : Snake) :
    ∀ (pre : List Snake) (other : Snake) (post : List Snake),
      (∀ t ∈ pre, t.id = self.id ∨ t.dead = true ∨ ¬ botDangerFrom self t) →
      other.id ≠ self.id → other.dead = false → botDangerFrom self other →
      botAvoid self (pre ++ other :: post)
        = ({ self with targetAngle := self.targetAngle + Real.pi / 2 }, true) := by
  intro pre
  induction pre with
  | nil =>
    intro other post _ hid hdead hhit
    rw [List.nil_append, botAvoid_cons, if_neg (by simp [hid, hdead]), if_pos hhit]
  | cons t pre ih =>
    intro other post hpre hid hdead hhit
    rw [List.cons_append, botAvoid_cons]
    by_cases hskip : t.id = self.id ∨ t.dead = true
    · rw [if_pos hskip]
      exact ih other post (fun u hu => hpre u (List.mem_cons_of_mem t hu)) hid hdead hhit
    · rw [if_neg hskip]
      have hnohit : ¬ botDangerFrom self t := by
        rcases hpre t (List.mem_cons_self t pre) with h | h | h
        · exact absurd (Or.inl h) hskip
        · exact absurd (Or.inr h) hskip
        · exact h
      rw [if_neg hnohit]
      exact ih other post (fun u hu => hpre u (List.mem_cons_of_mem t hu)) hid hdead hhit

/-- Claim C7, amended: on a scan tick with no boundary danger, the bot flags
danger and deflects its desired heading by exactly `+π/2` for the first live
neighbor some of whose sampled path points lies closer to the probe point
than the sum of the two agents' FULL widths (`this.width + other.width`,
`game.js:466`) — not the sum of the half-widths as the claim states — and
it neither flags nor deflects when no neighbor has such a sampled point. -/
theorem c7_bot_deflection :
    (∀ (self : Snake) (pre : List Snake) (other : Snake) (post : List Snake),
      (∀ t ∈ pre, t.id = self.id ∨ t.dead = true ∨ ¬ botDangerFrom self t) →
      other.id ≠ self.id → other.dead = false → botDangerFrom self other →
      botAvoid self (pre ++ other :: post)
        = ({ self with targetAngle := self.targetAngle + Real.pi / 2 }, true)) ∧
    (∀ (self : Snake) (l : List Snake),
      (∀ t ∈ l, t.id = self.id ∨ t.dead = true ∨ ¬ botDangerFrom self t) →
      botAvoid self l = (self, false)) := by
  constructor
  · intro self pre other post hpre hid hdead hhit
    exact botAvoid_first_hit self pre other post hpre hid hdead hhit
  · intro self l hl
    exact botAvoid_no_hit self l hl

/-- The bot of the C7 counterexample: head at the origin, heading 0,
width 100, so its probe point is (600, 0). -/
noncomputable def selfc : Snake := testSnake ⟨0, 0⟩ 100 100 1

/-- The neighbor of the C7 counterexample: width 100, one path point at
(750, 0) — probe distance 150, full-width sum 200, half-width sum 100. -/
noncomputable def otherc : Snake :=
  { testSnake ⟨0, 0⟩ 100 100 1 with id := 2, path := [⟨750, 0⟩] }

theorem probePos_selfc : selfc.probePos = ⟨600, 0⟩ := by
  unfold Snake.probePos Snake.lookDist selfc testSnake Vector.add Vector.mult
  simp only [Real.cos_zero, Real.sin_zero]
  show Vector.mk (0 + 1 * ((100:ℝ) * 4 + 200)) (0 + 0 * ((100:ℝ) * 4 + 200)) = ⟨600, 0⟩
  norm_num

theorem probe_dist_otherc : selfc.probePos.dist (otherc.path.getD 0 ⟨0, 0⟩) = 150 := by
  rw [probePos_selfc]
  show Real.sqrt (((600:ℝ) - 750) ^ 2 + ((0:ℝ) - 0) ^ 2) = 150
  rw [show ((600:ℝ) - 750) ^ 2 + ((0:ℝ) - 0) ^ 2 = 150 ^ 2 by norm_num,
    Real.sqrt_sq (by norm_num : (0:ℝ) ≤ 150)]

theorem botDangerFrom_counterexample : botDangerFrom selfc otherc := by
  unfold botDangerFrom
  refine ⟨0, ?_, ?_⟩
  · show 0 ∈ sampleIdx otherc.path.length (botStep otherc)
    decide
  · rw [probe_dist_otherc]
    show (150:ℝ) < 100 + 100
    norm_num

/-- Counterexample to Claim C7 as stated: the scan deflects the bot (so the
code flags danger) although no sampled point of the neighbor's path is
closer to the probe point than the sum of the two agents' half-widths — the
code's threshold at `game.js:466` is `this.width + other.width`, the sum of
the full widths. -/
theorem c7_counterexample :
    botAvoid selfc [otherc]
        = ({ selfc with targetAngle := selfc.targetAngle + Real.pi / 2 }, true) ∧
    ¬ botDangerClaim selfc otherc := by
  constructor
  · rw [botAvoid_cons, if_neg (by decide), if_pos botDangerFrom_counterexample]
  · rintro ⟨i, hi, hlt⟩
    have hl : sampleIdx otherc.path.length (botStep otherc) = [0] := by decide
    rw [hl] at hi
    have hi0 : i = 0 := by simpa using hi
    subst hi0
    rw [probe_dist_otherc] at hlt
    have : (150:ℝ) < 100 / 2 + 100 / 2 := hlt
    norm_num at this

/-- Witness for the amended C7 at the concrete bot and neighbor of the
counterexample (first-hit case and empty-scan case). -/
theorem c7_bot_deflection_witness :
    botAvoid selfc [otherc]
        = ({ selfc with targetAngle := selfc.targetAngle + Real.pi / 2 }, true) ∧
    botAvoid selfc [] = (selfc, false) := by
  constructor
  · exact c7_bot_deflection.1 selfc [] otherc []
      (by intro t ht; cases ht) (by decide) rfl botDangerFrom_counterexample
  · exact c7_bot_deflection.2 selfc [] (by intro t ht; cases ht)

theorem currentSpeed_bounds (s : Snake) (md : Bool) :
    0 ≤ s.currentSpeed md ∧ s.currentSpeed md ≤ 900 := by
  unfold Snake.currentSpeed CONFIG.boostSpeed CONFIG.baseSpeed
  split
  · norm_num
  · split
    · norm_num
    · norm_num

/-- Claim C10: the spawn square `[-0.75·mapSize, 0.75·mapSize)²` sampled by
the constructor reaches positions farther than `mapSize` from the origin —
e.g. `(-75000, -75000)` at the corner, distance `75000·√2 ≈ 106066` — so an
agent spawned there is already outside the circular map and is killed by the
bounds check on its very first update, for every clamped `dt` and every
spawn heading, with its position mutated only by that tick's translation. -/
theorem c10_spawn_outside (dt angle : ℝ) (bot md : Bool)
    (h1 : 0 ≤ dt) (h2 : dt ≤ 0.05) :
    attainableSpawn ⟨-75000, -75000⟩ ∧
    CONFIG.mapSize < (Vector.mk (-75000) (-75000)).mag ∧
    ((Snake.spawn 7 ⟨-75000, -75000⟩ angle bot 100).update dt md).2 = true ∧
    ((Snake.spawn 7 ⟨-75000, -75000⟩ angle bot 100).update dt md).1.dead = true ∧
    ((Snake.spawn 7 ⟨-75000, -75000⟩ angle bot 100).update dt md).1.pos
      = (Snake.spawn 7 ⟨-75000, -75000⟩ angle bot 100).movedPos dt md := by
  set s0 := Snake.spawn 7 ⟨-75000, -75000⟩ angle bot 100
  have hspd := currentSpeed_bounds s0 md
  have hc0 : 0 ≤ s0.currentSpeed md * dt := mul_nonneg hspd.1 h1
  have hc45 : s0.currentSpeed md * dt ≤ 45 := by
    calc s0.currentSpeed md * dt ≤ 900 * dt := mul_le_mul_of_nonneg_right hspd.2 h1
      _ ≤ 900 * 0.05 := by linarith
      _ = 45 := by norm_num
  have hmv : s0.movedPos dt md
      = ⟨-75000 + Real.cos (s0.angleAfter dt) * (s0.currentSpeed md * dt),
         -75000 + Real.sin (s0.angleAfter dt) * (s0.currentSpeed md * dt)⟩ := rfl
  have hout : CONFIG.mapSize < (s0.movedPos dt md).mag := by
    rw [hmv]
    show (100000:ℝ) < Real.sqrt _
    apply (Real.lt_sqrt (by norm_num)).mpr
    have hca1 : Real.cos (s0.angleAfter dt) ≤ 1 := Real.cos_le_one _
    have hcam : -1 ≤ Real.cos (s0.angleAfter dt) := Real.neg_one_le_cos _
    have hsa1 : Real.sin (s0.angleAfter dt) ≤ 1 := Real.sin_le_one _
    have hsam : -1 ≤ Real.sin (s0.angleAfter dt) := Real.neg_one_le_sin _
    have hu1 : Real.cos (s0.angleAfter dt) * (s0.currentSpeed md * dt) ≤ 45 := by
      calc Real.cos (s0.angleAfter dt) * (s0.currentSpeed md * dt)
          ≤ 1 * (s0.currentSpeed md * dt) := mul_le_mul_of_nonneg_right hca1 hc0
        _ = s0.currentSpeed md * dt := one_mul _
        _ ≤ 45 := hc45
    have hu3 : Real.sin (s0.angleAfter dt) * (s0.currentSpeed md * dt) ≤ 45 := by
      calc Real.sin (s0.angleAfter dt) * (s0.currentSpeed md * dt)
          ≤ 1 * (s0.currentSpeed md * dt) := mul_le_mul_of_nonneg_right hsa1 hc0
        _ = s0.currentSpeed md * dt := one_mul _
        _ ≤ 45 := hc45
    show (100000:ℝ) ^ 2 <
      (-75000 + Real.cos (s0.angleAfter dt) * (s0.currentSpeed md * dt))
        * (-75000 + Real.cos (s0.angleAfter dt) * (s0.currentSpeed md * dt))
      + (-75000 + Real.sin (s0.angleAfter dt) * (s0.currentSpeed md * dt))
        * (-75000 + Real.sin (s0.angleAfter dt) * (s0.currentSpeed md * dt))
    nlinarith [sq_nonneg (Real.cos (s0.angleAfter dt) * (s0.currentSpeed md * dt)),
      sq_nonneg (Real.sin (s0.angleAfter dt) * (s0.currentSpeed md * dt)), hu1, hu3]
  have hupd := @update_bounds_death s0 dt md rfl hout
  refine ⟨⟨0, 0, le_rfl, by norm_num, le_rfl, by norm_num, ?_⟩, ?_, ?_, ?_, ?_⟩
  · rw [show ((0:ℝ) - 0.5) * CONFIG.mapSize * 1.5 = -75000 by norm_num [CONFIG.mapSize]]
  · show (100000:ℝ) < Real.sqrt ((-75000:ℝ) * -75000 + (-75000:ℝ) * -75000)
    apply (Real.lt_sqrt (by norm_num)).mpr
    norm_num
  · rw [hupd]
  · rw [hupd]
  · rw [hupd]

/-- Witness for C10 at `dt = 0`, heading 0, player variant. -/
theorem c10_spawn_outside_witness :
    attainableSpawn ⟨-75000, -75000⟩ ∧
    CONFIG.mapSize < (Vector.mk (-75000) (-75000)).mag ∧
    ((Snake.spawn 7 ⟨-75000, -75000⟩ 0 false 100).update 0 false).2 = true ∧
    ((Snake.spawn 7 ⟨-75000, -75000⟩ 0 false 100).update 0 false).1.dead = true ∧
    ((Snake.spawn 7 ⟨-75000, -75000⟩ 0 false 100).update 0 false).1.pos
      = (Snake.spawn 7 ⟨-75000, -75000⟩ 0 false 100).movedPos 0 false :=
  c10_spawn_outside 0 0 false false le_rfl (by norm_num)

end Game
